import Mathlib

/-!
Shallow embedding of src/control_fingers/control_fingers.ino.

The sketch drives a 6-channel servo hand.  A serial task accumulates bytes
into a buffer and, on a newline, decodes 6 digit characters into the global
target vector state0 and raises the flag change.  The main loop, whenever
change is true, runs a 26-step animation (i = 5, 10, ..., 130): at each step
it samples 5 hall sensors and, for each reading above its threshold, copies
the target bit into the latch vector state1 (sensor k guards finger k+1);
then every finger with state0[j] differing from state1[j] receives a servo
command moveFinger(j, state0[j], i); after the loop state1 is overwritten
with state0.

State vectors are modelled as functions Fin 6 -> Bool, the servo calibration
macros SERVOMIN/SERVOMAX (placeholders in the source) as an explicit record,
machine long division as truncation toward zero, and the float expression in
the thumb branch as exact rational arithmetic (the operands 103 * i with
i <= 130 and the calibrated bases are far below the float precision limit,
so the rounded result is the rounded exact value).  Real-time delays
(delay(17), delay(100), delay(10)) are not modelled; the per-step order of
effects is.
-/

namespace GestureSound

/-- Sensing-finger thresholds: third column of the hall array in the source,
{{26,0,2200},{27,0,2400},{14,0,2300},{25,0,2200},{12,0,2300}}. -/
def hallThreshold : Fin 5 → Nat := fun k => [2200, 2400, 2300, 2200, 2300].getD k 0

/-- Channel id of the wrist (int wrist = 0). -/
def wrist : Fin 6 := 0

/-- Channel id of the thumb (int thumb = 4). -/
def thumb : Fin 6 := 4

/-- Channel id of the index finger (int index = 1). -/
def index : Fin 6 := 1

/-- Channel id of the middle finger (int middle = 2). -/
def middle : Fin 6 := 2

/-- Channel id of the ring finger (int ring = 3). -/
def ring : Fin 6 := 3

/-- Channel id of the pinky (int pinky = 5). -/
def pinky : Fin 6 := 5

/-- The six logical fingers, named as in the source's id block. -/
inductive Finger where
  | wrist
  | thumb
  | index
  | middle
  | ring
  | pinky
deriving DecidableEq

/-- The channel (array index) of each finger, from the source's id block. -/
def fingerChannel : Finger → Fin 6
  | .wrist => wrist
  | .thumb => thumb
  | .index => index
  | .middle => middle
  | .ring => ring
  | .pinky => pinky

/-- Modelled from the spec: the position each finger would take in a command
line under the order "wrist, thumb, index, middle, ring, pinky" that the spec
asserts (written only to compare the spec's claim with the code). -/
def specOrderPos : Finger → Fin 6
  | .wrist => 0
  | .thumb => 1
  | .index => 2
  | .middle => 3
  | .ring => 4
  | .pinky => 5

/-- Value of Arduino String.substring(i, i+1).toInt() on a single character:
atol yields the digit's value on '0'..'9' (bytes 48..57) and 0 on anything
else, including the empty string. -/
def charDigitVal (c : Char) : Nat :=
  if 48 ≤ c.toNat ∧ c.toNat ≤ 57 then c.toNat - 48 else 0

/-- One slot of the decode loop: state0[i] = state.substring(i, i+1).toInt(),
a C++ bool assignment, so nonzero means true.  An index at or past the end of
the buffer yields the empty substring, hence 0, hence false. -/
def decodePos (s : List Char) (i : Nat) : Bool :=
  match s[i]? with
  | some c => charDigitVal c != 0
  | none => false

/-- The 6-entry target vector the decode loop (for i in 0..5) writes. -/
def decodeLine (s : List Char) : Fin 6 → Bool := fun j => decodePos s j

/-- The target bit the decoder leaves for a given finger: the finger's
channel indexes the decoded vector. -/
def targetOf (s : List Char) (f : Finger) : Bool := decodeLine s (fingerChannel f)

/-- Servo calibration: the SERVOMIN/SERVOMAX macros, placeholders
("Your value") in the source, kept as parameters. -/
structure Config where
  servoMin : Int
  servoMax : Int

/-- Arduino map(x, 0, 320, SERVOMIN, SERVOMAX) with C++ long division
(truncation toward zero). -/
def degToPwm (cfg : Config) (degree : Int) : Int :=
  Int.tdiv (degree * (cfg.servoMax - cfg.servoMin)) 320 + cfg.servoMin

/-- int deg = degToPwm(75). -/
def deg (cfg : Config) : Int := degToPwm cfg 75

/-- int deg1 = degToPwm(95). -/
def deg1 (cfg : Config) : Int := degToPwm cfg 95

/-- int deg2 = degToPwm(85). -/
def deg2 (cfg : Config) : Int := degToPwm cfg 85

/-- int startDeg = degToPwm(180). -/
def startDeg (cfg : Config) : Int := degToPwm cfg 180

/-- C round(): nearest integer, halves away from zero. -/
def cround (q : ℚ) : ℤ :=
  if 0 ≤ q then ⌊q + 1 / 2⌋ else -⌊1 / 2 - q⌋

/-- The pulse width moveFinger(fingerId, flex, iteration) sends on the
finger's channel, branch for branch as in the source; the thumb branches
compute in float, modelled as exact rationals. -/
def moveFingerVal (cfg : Config) (fingerId : Fin 6) (flex : Bool) (iteration : Nat) : Int :=
  if fingerId ≠ ring ∧ fingerId ≠ pinky then
    if flex then
      if fingerId = thumb then cround ((cfg.servoMin : ℚ) + (103 * iteration : ℚ) / 130)
      else cfg.servoMin + iteration
    else
      if fingerId = thumb then cround ((deg cfg : ℚ) - (103 * iteration : ℚ) / 130)
      else deg1 cfg - iteration
  else
    if flex then startDeg cfg - iteration
    else deg2 cfg + iteration

/-- One recorded call moveFinger(fingerId, state0[fingerId], i). -/
structure Cmd where
  fingerId : Fin 6
  flex : Bool
  iteration : Nat
deriving DecidableEq

/-- One sensor check: if hall[k][1] > hall[k][2] then state1[k+1] = state0[k+1]. -/
def gateOne (r : Fin 5 → Nat) (s0 : Fin 6 → Bool) (s1 : Fin 6 → Bool) (k : Fin 5) :
    Fin 6 → Bool :=
  if hallThreshold k < r k then Function.update s1 k.succ (s0 k.succ) else s1

/-- The inner sensor loop (for k in 0..4) over the latch vector state1. -/
def gateAll (r : Fin 5 → Nat) (s0 s1 : Fin 6 → Bool) : Fin 6 → Bool :=
  (List.finRange 5).foldl (gateOne r s0) s1

/-- The command loop of one motion step: every finger j with
state0[j] != state1[j] gets moveFinger(j, state0[j], i). -/
def commandsAtStep (s0 s1 : Fin 6 → Bool) (i : Nat) : List Cmd :=
  (List.finRange 6).filterMap fun j =>
    if s0 j ≠ s1 j then some ⟨j, s0 j, i⟩ else none

/-- The iteration values of the animation loop for(i = 5; i < 135; i += 5):
26 values 5, 10, ..., 130. -/
def forSteps : List Nat := List.range' 5 26 5

/-- Run the motion steps in a list: at each step i, sample the sensors
(readings r i), gate the latch, then issue the commands of that step.
Returns the final latch and the concatenated command trace.  The target
vector is a function of the step to admit a serial overwrite between steps;
a cycle without interference uses a constant target. -/
def runSteps (targets : Nat → Fin 6 → Bool) (r : Nat → Fin 5 → Nat) :
    List Nat → (Fin 6 → Bool) → (Fin 6 → Bool) × List Cmd
  | [], s1 => (s1, [])
  | i :: rest, s1 =>
    let s1g := gateAll (r i) (targets i) s1
    let res := runSteps targets r rest s1g
    (res.1, commandsAtStep (targets i) s1g i ++ res.2)

/-- The post-animation resync loop: for i in 0..5, state1[i] = state0[i]. -/
def resync (s0 s1 : Fin 6 → Bool) : Fin 6 → Bool :=
  (List.finRange 6).foldl (fun s j => Function.update s j (s0 j)) s1

/-- The globals the two tasks share: the serial buffer (String state), the
target vector state0, the latch vector state1 and the flag change. -/
structure SysState where
  buffer : List Char
  state0 : Fin 6 → Bool
  state1 : Fin 6 → Bool
  change : Bool

/-- Initial values of the globals (both vectors all false, flag false,
empty buffer). -/
def initState : SysState :=
  { buffer := [], state0 := fun _ => false, state1 := fun _ => false, change := false }

/-- One byte of the serial task recieveDataCode: a newline decodes the
buffer into state0, raises change and clears the buffer; any other byte is
appended to the buffer. -/
def processByte (st : SysState) (c : Char) : SysState :=
  if c = '\n' then
    { st with buffer := [], state0 := decodeLine st.buffer, change := true }
  else
    { st with buffer := st.buffer ++ [c] }

/-- The serial task over a list of bytes. -/
def processBytes (st : SysState) (l : List Char) : SysState :=
  l.foldl processByte st

/-- Sensor readings all zero (below every threshold). -/
def noReadings : Nat → Fin 5 → Nat := fun _ _ => 0

/-- One iteration of loop(): if change is true, run the 26 motion steps and
then resync state1 to state0.  Nothing clears change.  This models an
iteration with no serial interference, so the target is constant. -/
def loopIteration (r : Nat → Fin 5 → Nat) (st : SysState) : SysState :=
  if st.change then
    { st with state1 := resync st.state0 (runSteps (fun _ => st.state0) r forSteps st.state1).1 }
  else st

/-- The command trace one loop iteration would issue from state st with
sensor readings r (empty when change is false mirrors no motion). -/
def cycleCmds (r : Nat → Fin 5 → Nat) (st : SysState) : List Cmd :=
  if st.change then (runSteps (fun _ => st.state0) r forSteps st.state1).2 else []

/-- The command line "000000" (without its terminator). -/
def lineZeros : List Char := "000000".data

/-- The command line "111111" (without its terminator). -/
def lineOnes : List Char := "111111".data

/-- Target schedule of the overwritten first cycle: the serial task replaces
state0 (decoded from "000000") with the decode of "111111" before the step
with iteration value m. -/
def c5targets (m : Nat) : Nat → Fin 6 → Bool :=
  fun i => if i < m then decodeLine lineZeros else decodeLine lineOnes

/-- The in-flight cycle of the overwrite scenario: latch initially all false
(the startup value of state1), sensors all below threshold. -/
def c5firstCycle (m : Nat) : (Fin 6 → Bool) × List Cmd :=
  runSteps (c5targets m) noReadings forSteps (fun _ => false)

/-- The following cycle: change is still set, state0 holds the decode of
"111111", and state1 was resynced at the end of the first cycle. -/
def c5secondCycle (m : Nat) : (Fin 6 → Bool) × List Cmd :=
  runSteps (fun _ => decodeLine lineOnes) noReadings forSteps
    (resync (c5targets m 135) (c5firstCycle m).1)

/-- Sensor readings all far above every threshold. -/
def bigReadings : Nat → Fin 5 → Nat := fun _ _ => 9999

/-- The all-flexed state vector. -/
def allFlexed : Fin 6 → Bool := fun _ => true

/-- The all-extended state vector. -/
def allExtended : Fin 6 → Bool := fun _ => false

/-- A plausible servo calibration (used to instantiate the parametrised
SERVOMIN/SERVOMAX macros in concrete checks). -/
def cfg0 : Config := { servoMin := 150, servoMax := 600 }

/-! ### Basic lemmas about the embedded operations -/

lemma gateOne_apply (r : Fin 5 → Nat) (s0 s1 : Fin 6 → Bool) (k : Fin 5) (j : Fin 6) :
    gateOne r s0 s1 k j = if hallThreshold k < r k ∧ j = k.succ then s0 j else s1 j := by
  unfold gateOne
  by_cases hr : hallThreshold k < r k
  · rw [if_pos hr]
    by_cases hj : j = k.succ
    · subst hj
      rw [Function.update_same, if_pos ⟨hr, rfl⟩]
    · rw [Function.update_noteq hj, if_neg (fun h => hj h.2)]
  · rw [if_neg hr, if_neg (fun h => hr h.1)]

lemma gateFold_apply (r : Fin 5 → Nat) (s0 : Fin 6 → Bool) (L : List (Fin 5))
    (s1 : Fin 6 → Bool) (j : Fin 6) :
    (L.foldl (gateOne r s0) s1) j =
      if ∃ k ∈ L, j = k.succ ∧ hallThreshold k < r k then s0 j else s1 j := by
  induction L generalizing s1 with
  | nil => simp
  | cons k L ih =>
    rw [List.foldl_cons, ih]
    by_cases h1 : ∃ k1 ∈ L, j = Fin.succ k1 ∧ hallThreshold k1 < r k1
    · rw [if_pos h1, if_pos]
      obtain ⟨k1, hk1, h⟩ := h1
      exact ⟨k1, List.mem_cons_of_mem _ hk1, h⟩
    · rw [if_neg h1, gateOne_apply]
      by_cases h2 : hallThreshold k < r k ∧ j = k.succ
      · rw [if_pos h2, if_pos ⟨k, List.mem_cons_self k L, h2.2, h2.1⟩]
      · rw [if_neg h2, if_neg]
        rintro ⟨k1, hk1, hj, hr⟩
        rcases List.mem_cons.mp hk1 with rfl | hk1
        · exact h2 ⟨hr, hj⟩
        · exact h1 ⟨k1, hk1, hj, hr⟩

lemma gateAll_apply (r : Fin 5 → Nat) (s0 s1 : Fin 6 → Bool) (j : Fin 6) :
    gateAll r s0 s1 j =
      if ∃ k : Fin 5, j = k.succ ∧ hallThreshold k < r k then s0 j else s1 j := by
  unfold gateAll
  rw [gateFold_apply]
  simp [List.mem_finRange]

lemma gateAll_pres {s0 s1 : Fin 6 → Bool} {j : Fin 6} (r : Fin 5 → Nat)
    (h : s1 j = s0 j) : gateAll r s0 s1 j = s0 j := by
  rw [gateAll_apply]
  split_ifs
  · rfl
  · exact h

lemma gateAll_exceed {r : Fin 5 → Nat} (s0 s1 : Fin 6 → Bool) (k : Fin 5)
    (h : hallThreshold k < r k) : gateAll r s0 s1 k.succ = s0 k.succ := by
  rw [gateAll_apply, if_pos ⟨k, rfl, h⟩]

lemma gateAll_noop {r : Fin 5 → Nat} (s0 s1 : Fin 6 → Bool)
    (h : ∀ k, ¬ hallThreshold k < r k) : gateAll r s0 s1 = s1 := by
  funext j
  rw [gateAll_apply, if_neg]
  rintro ⟨k, -, hk⟩
  exact h k hk

lemma updFold_apply (s0 : Fin 6 → Bool) (L : List (Fin 6)) (s1 : Fin 6 → Bool) (j : Fin 6) :
    (L.foldl (fun s i => Function.update s i (s0 i)) s1) j = if j ∈ L then s0 j else s1 j := by
  induction L generalizing s1 with
  | nil => simp
  | cons i L ih =>
    rw [List.foldl_cons, ih]
    by_cases h1 : j ∈ L
    · rw [if_pos h1, if_pos (List.mem_cons_of_mem _ h1)]
    · rw [if_neg h1]
      by_cases h2 : j = i
      · subst h2
        rw [Function.update_same, if_pos (List.mem_cons_self j L)]
      · rw [Function.update_noteq h2, if_neg (by simp [List.mem_cons, h1, h2])]

lemma resync_eq (s0 s1 : Fin 6 → Bool) : resync s0 s1 = s0 := by
  funext j
  unfold resync
  rw [updFold_apply, if_pos (List.mem_finRange j)]

lemma commandsAtStep_not_mem {s0 s1 : Fin 6 → Bool} {j : Fin 6} (h : s1 j = s0 j) (i : Nat) :
    ∀ c ∈ commandsAtStep s0 s1 i, c.fingerId ≠ j := by
  intro c hc hj
  obtain ⟨a, ha, he⟩ := List.mem_filterMap.mp hc
  by_cases hne : s0 a ≠ s1 a
  · rw [if_pos hne] at he
    obtain rfl := Option.some.inj he
    have haj : a = j := hj
    subst haj
    exact hne h.symm
  · rw [if_neg hne] at he
    exact Option.noConfusion he

lemma commandsAtStep_nil {s0 s1 : Fin 6 → Bool} (h : ∀ j, s1 j = s0 j) (i : Nat) :
    commandsAtStep s0 s1 i = [] := by
  rw [commandsAtStep, List.filterMap_eq_nil_iff]
  intro a _
  exact if_neg (fun hne => hne (h a).symm)

lemma runSteps_inv (tgt : Fin 6 → Bool) (r : Nat → Fin 5 → Nat) (steps : List Nat)
    (s1 : Fin 6 → Bool) (j : Fin 6) (h : s1 j = tgt j) :
    (runSteps (fun _ => tgt) r steps s1).1 j = tgt j ∧
      ∀ c ∈ (runSteps (fun _ => tgt) r steps s1).2, c.fingerId ≠ j := by
  induction steps generalizing s1 with
  | nil =>
    refine ⟨h, ?_⟩
    intro c hc
    simp [runSteps] at hc
  | cons i rest ih =>
    have hg : gateAll (r i) tgt s1 j = tgt j := gateAll_pres _ h
    obtain ⟨ih1, ih2⟩ := ih (gateAll (r i) tgt s1) hg
    refine ⟨ih1, ?_⟩
    intro c hc
    simp only [runSteps] at hc
    rcases List.mem_append.mp hc with h1 | h2
    · exact commandsAtStep_not_mem hg i c h1
    · exact ih2 c h2

lemma runSteps_cmds_nil (tgt : Fin 6 → Bool) (r : Nat → Fin 5 → Nat) (steps : List Nat)
    (s1 : Fin 6 → Bool) (h : ∀ j, s1 j = tgt j) :
    (runSteps (fun _ => tgt) r steps s1).2 = [] := by
  rw [List.eq_nil_iff_forall_not_mem]
  intro c hc
  exact (runSteps_inv tgt r steps s1 c.fingerId (h _)).2 c hc rfl

lemma runSteps_append (t : Nat → Fin 6 → Bool) (r : Nat → Fin 5 → Nat)
    (l1 l2 : List Nat) (s1 : Fin 6 → Bool) :
    runSteps t r (l1 ++ l2) s1 =
      ((runSteps t r l2 (runSteps t r l1 s1).1).1,
       (runSteps t r l1 s1).2 ++ (runSteps t r l2 (runSteps t r l1 s1).1).2) := by
  induction l1 generalizing s1 with
  | nil => simp [runSteps]
  | cons i rest ih =>
    show runSteps t r (i :: (rest ++ l2)) s1 = _
    simp only [runSteps]
    rw [ih]
    simp [List.append_assoc]

lemma runSteps_noGate (t : Nat → Fin 6 → Bool) (r : Nat → Fin 5 → Nat) (steps : List Nat)
    (s1 : Fin 6 → Bool) (h : ∀ i (k : Fin 5), ¬ hallThreshold k < r i k) :
    runSteps t r steps s1 =
      (s1, steps.foldr (fun i acc => commandsAtStep (t i) s1 i ++ acc) []) := by
  induction steps with
  | nil => rfl
  | cons i rest ih =>
    simp only [runSteps, gateAll_noop (t i) s1 (h i), List.foldr_cons]
    rw [ih]

lemma processBytes_line (l : List Char) :
    ∀ st : SysState, '\n' ∉ l →
      processBytes st (l ++ ['\n']) =
        { buffer := [], state0 := decodeLine (st.buffer ++ l), state1 := st.state1,
          change := true } := by
  induction l with
  | nil =>
    intro st _
    simp [processBytes, processByte]
  | cons c l ih =>
    intro st hn
    have hc : c ≠ '\n' := fun h => hn (h ▸ List.mem_cons_self c l)
    simp only [List.cons_append, processBytes, List.foldl_cons]
    have hb : processByte st c = { st with buffer := st.buffer ++ [c] } := by
      simp [processByte, hc]
    rw [hb]
    have := ih { st with buffer := st.buffer ++ [c] } (fun h => hn (List.mem_cons_of_mem _ h))
    simp only [processBytes] at this
    rw [this]
    simp [List.append_assoc]

lemma char_eq_of_toNat {c d : Char} (h : c.toNat = d.toNat) : c = d :=
  Char.ext (UInt32.toNat.inj h)

lemma charDigitVal_of_digit (c : Char) (h : 48 ≤ c.toNat ∧ c.toNat ≤ 57) :
    (charDigitVal c != 0) = (c != '0') := by
  rw [charDigitVal, if_pos h]
  by_cases hc : c = '0'
  · subst hc
    decide
  · have h48 : c.toNat ≠ 48 := fun he => hc (char_eq_of_toNat (by simpa using he))
    have hne : c.toNat - 48 ≠ 0 := by omega
    rw [bne_iff_ne.mpr hne, bne_iff_ne.mpr hc]

lemma decodeLine_zeros : decodeLine lineZeros = fun _ => false := by decide

lemma decodeLine_ones : decodeLine lineOnes = fun _ => true := by decide

lemma getLast_foldr_blocks (g : Nat → List Cmd) (L : List Nat) (init : List Cmd) (c : Cmd)
    (h : init.getLast? = some c) :
    (L.foldr (fun i acc => g i ++ acc) init).getLast? = some c := by
  induction L with
  | nil => exact h
  | cons i L ih => rw [List.foldr_cons, List.getLast?_append, ih]; rfl

lemma filter_commandsAtStep_allMove (i : Nat) (j : Fin 6) :
    (commandsAtStep (fun _ => true) (fun _ => false) i).filter (fun c => c.fingerId == j) =
      [⟨j, true, i⟩] := by
  fin_cases j <;> rfl

lemma c5_trace_filter (m : Nat) (j : Fin 6) (L : List Nat) :
    (L.foldr (fun i acc => commandsAtStep (c5targets m i) (fun _ => false) i ++ acc) []).filter
        (fun c => c.fingerId == j) =
      L.foldr (fun i acc => (if i < m then [] else [(⟨j, true, i⟩ : Cmd)]) ++ acc) [] := by
  induction L with
  | nil => rfl
  | cons i L ih =>
    rw [List.foldr_cons, List.foldr_cons, List.filter_append, ih]
    congr 1
    unfold c5targets
    by_cases hm : i < m
    · rw [if_pos hm, if_pos hm, decodeLine_zeros,
        commandsAtStep_nil (fun _ => rfl)]
      rfl
    · rw [if_neg hm, if_neg hm, decodeLine_ones]
      exact filter_commandsAtStep_allMove i j

/-! ### Claims -/

/-- Claim C3: at the end of every command cycle the motion sequencer
unconditionally overwrites the latch vector state1 with the target vector
state0 (the resync loop), so at the start of the next command cycle the
latch equals the previous cycle's target and no stale latch flag survives
a completed cycle. -/
theorem C3_end_of_cycle_resync (r : Nat → Fin 5 → Nat) (st : SysState)
    (hc : st.change = true) : (loopIteration r st).state1 = st.state0 := by
  unfold loopIteration
  rw [if_pos hc]
  exact resync_eq _ _

/-- Witness for C3 at a concrete state with the flag set. -/
theorem C3_end_of_cycle_resync_witness :
    ({ buffer := [], state0 := allFlexed, state1 := allExtended, change := true } :
        SysState).change = true ∧
    (loopIteration noReadings
        { buffer := [], state0 := allFlexed, state1 := allExtended, change := true }).state1 =
      ({ buffer := [], state0 := allFlexed, state1 := allExtended, change := true } :
        SysState).state0 :=
  ⟨rfl, C3_end_of_cycle_resync noReadings
    { buffer := [], state0 := allFlexed, state1 := allExtended, change := true } rfl⟩

/-- Claim C9 (as stated, refuted at a concrete run): the claim says the dirty
flag is cleared once the motion sequencer has consumed the command, so that a
state with no pending command has the flag false.  In the code nothing ever
writes false to change: after "000000" plus newline is decoded and the loop
iteration has fully consumed it (animation done and latch resynced), change
still reads true. -/
theorem C9_counterexample :
    (loopIteration noReadings (processBytes initState ("000000\n".data))).change = true := by
  rfl

/-- Claim C9 amended: the flag change is set by the decoder on each complete
line and is never cleared by any transition - a non-newline byte and a whole
loop iteration (consuming or not) both leave it untouched - so after the
first complete line it stays true forever; harmlessness of the permanently
set flag comes from the end-of-cycle resync, not from clearing. -/
theorem C9_flag_never_cleared (st : SysState) (c : Char) (r : Nat → Fin 5 → Nat) :
    (processByte st '\n').change = true ∧
    (c ≠ '\n' → (processByte st c).change = st.change) ∧
    (loopIteration r st).change = st.change := by
  refine ⟨?_, ?_, ?_⟩
  · rw [processByte, if_pos rfl]
  · intro hc
    rw [processByte, if_neg hc]
  · unfold loopIteration
    by_cases h : st.change = true
    · rw [if_pos h]
    · rw [if_neg h]

/-- Claim C10: only the first 6 characters of the accumulated buffer affect
the decoded target vector (the decode loop reads positions 0 through 5), and
processing the newline resets the buffer to empty after decoding it. -/
theorem C10_first_six_only :
    (∀ l : List Char, decodeLine l = decodeLine (l.take 6)) ∧
    (∀ st : SysState, (processByte st '\n').buffer = [] ∧
      (processByte st '\n').state0 = decodeLine st.buffer) := by
  constructor
  · intro l
    funext j
    unfold decodeLine decodePos
    rw [List.getElem?_take, if_pos j.isLt]
  · intro st
    rw [processByte, if_pos rfl]
    exact ⟨rfl, rfl⟩

/-- Claim C6: the animation loop for(i = 5; i < 135; i += 5) visits exactly
the ascending iteration values 5, 10, ..., 130 - 26 steps, 135 excluded -
and at each step the sensor gate runs over the latch before the per-finger
command loop, which reads the gated latch (the fixed 17 ms pacing delay after
each step is real time and not part of the state model). -/
theorem C6_step_sequence :
    forSteps = [5, 10, 15, 20, 25, 30, 35, 40, 45, 50, 55, 60, 65, 70, 75, 80,
      85, 90, 95, 100, 105, 110, 115, 120, 125, 130] ∧
    forSteps.length = 26 ∧
    (∀ x : Nat, x ∈ forSteps ↔ 5 ≤ x ∧ x < 135 ∧ x % 5 = 0) ∧
    List.Pairwise (· < ·) forSteps ∧
    (∀ (t : Nat → Fin 6 → Bool) (r : Nat → Fin 5 → Nat) (s1 : Fin 6 → Bool) (i : Nat)
        (rest : List Nat),
      runSteps t r (i :: rest) s1 =
        ((runSteps t r rest (gateAll (r i) (t i) s1)).1,
         commandsAtStep (t i) (gateAll (r i) (t i) s1) i ++
           (runSteps t r rest (gateAll (r i) (t i) s1)).2)) := by
  refine ⟨rfl, rfl, ?_, by decide, ?_⟩
  · intro x
    rw [forSteps, List.mem_range']
    constructor
    · rintro ⟨i, hi, rfl⟩
      omega
    · rintro ⟨h5, h135, hmod⟩
      exact ⟨(x - 5) / 5, by omega, by omega⟩
  · intro t r s1 i rest
    rfl

/-- Claim C7: each of the 6 decoded positions whose character is missing
(buffer shorter than 6) or non-numeric decodes to extended/false; the decode
of a position depends only on that position's character, so one bad position
aborts nothing, and the decoder is a total function, so no error is
signalled. -/
theorem C7_tolerant_decode (s : List Char) (j : Fin 6) :
    (s[(j : Nat)]? = none → decodeLine s j = false) ∧
    (∀ c : Char, s[(j : Nat)]? = some c → ¬ (48 ≤ c.toNat ∧ c.toNat ≤ 57) →
      decodeLine s j = false) ∧
    (∀ t : List Char, t[(j : Nat)]? = s[(j : Nat)]? → decodeLine t j = decodeLine s j) := by
  refine ⟨?_, ?_, ?_⟩
  · intro h
    unfold decodeLine decodePos
    rw [h]
  · intro c hc hd
    unfold decodeLine decodePos
    rw [hc]
    show (charDigitVal c != 0) = false
    rw [charDigitVal, if_neg hd]
    rfl
  · intro t ht
    unfold decodeLine decodePos
    rw [ht]

/-- Claim C1 (as stated, refuted): the claim reads the 6 digits in the order
wrist, thumb, index, middle, ring, pinky, making digit position 1 control the
thumb.  In the code the thumb's channel is 4 and the index finger's is 1, so
on the line "010000" the thumb's decoded target is false while the claim's
order demands true. -/
theorem C1_counterexample :
    ¬ (∀ s : List Char, s.length = 6 → (∀ c ∈ s, 48 ≤ c.toNat ∧ c.toNat ≤ 57) →
        ∀ f : Finger, targetOf s f = (s.getD ((specOrderPos f : Fin 6) : Nat) '0' != '0')) := by
  intro h
  exact absurd (h ("010000".data) (by decide) (by decide) Finger.thumb) (by decide)

/-- Claim C1 amended: for a complete line of 6 ASCII digits the decoded
target vector is the digit-wise boolean interpretation (digit zero gives
extended/false, a non-zero digit flexed/true), but digit position i controls
the finger whose channel id is i, i.e. the order wrist, index, middle, ring,
thumb, pinky: the fifth digit (position 4) controls the thumb and the second
digit (position 1) the index finger. -/
theorem C1_decode_by_channel (s : List Char) (h6 : s.length = 6)
    (hd : ∀ c ∈ s, 48 ≤ c.toNat ∧ c.toNat ≤ 57) (f : Finger) :
    targetOf s f = (s.getD ((fingerChannel f : Fin 6) : Nat) '0' != '0') ∧
    (fingerChannel Finger.thumb : Nat) = 4 ∧ (fingerChannel Finger.index : Nat) = 1 := by
  refine ⟨?_, rfl, rfl⟩
  unfold targetOf decodeLine decodePos
  have hlt : ((fingerChannel f : Fin 6) : Nat) < s.length := by
    rw [h6]
    exact (fingerChannel f).isLt
  obtain ⟨c, hc⟩ : ∃ c, s[((fingerChannel f : Fin 6) : Nat)]? = some c :=
    ⟨_, List.getElem?_eq_getElem hlt⟩
  rw [hc, List.getD_eq_getElem?_getD, hc]
  exact charDigitVal_of_digit c (hd c (List.getElem?_mem hc))

/-- Witness for C1's amended theorem on the line "010000" at the thumb. -/
theorem C1_decode_by_channel_witness :
    ("010000".data.length = 6 ∧ (∀ c ∈ "010000".data, 48 ≤ c.toNat ∧ c.toNat ≤ 57)) ∧
    (targetOf ("010000".data) Finger.thumb =
        ("010000".data.getD ((fingerChannel Finger.thumb : Fin 6) : Nat) '0' != '0') ∧
      (fingerChannel Finger.thumb : Nat) = 4 ∧ (fingerChannel Finger.index : Nat) = 1) :=
  ⟨⟨by decide, by decide⟩,
    C1_decode_by_channel ("010000".data) (by decide) (by decide) Finger.thumb⟩

/-- Claim C8: the thumb branch of moveFinger maps the step range onto a span
of 103 device units: the flex command at iteration i is
round(SERVOMIN + 103 i / 130) and the extend command is
round(deg - 103 i / 130), deg being the calibrated 75-degree pulse width
degToPwm(75); nonnegative calibration makes C's round (halves away from
zero) the round-to-nearest of the claim. -/
theorem C8_thumb_scaling (cfg : Config) (i : Nat) (hi : i ≤ 130)
    (hmin : 0 ≤ cfg.servoMin) (hdeg : 103 ≤ deg cfg) :
    moveFingerVal cfg thumb true i = round ((cfg.servoMin : ℚ) + (103 * i : ℚ) / 130) ∧
    moveFingerVal cfg thumb false i = round ((deg cfg : ℚ) - (103 * i : ℚ) / 130) := by
  have hq0 : (0 : ℚ) ≤ (103 * i : ℚ) / 130 := by positivity
  have hq103 : (103 * i : ℚ) / 130 ≤ 103 := by
    rw [div_le_iff₀ (by norm_num : (0 : ℚ) < 130)]
    have hi2 : (i : ℚ) ≤ 130 := by exact_mod_cast hi
    nlinarith
  have hminQ : (0 : ℚ) ≤ (cfg.servoMin : ℚ) := by exact_mod_cast hmin
  have hdegQ : (103 : ℚ) ≤ (deg cfg : ℚ) := by exact_mod_cast hdeg
  constructor
  · show cround ((cfg.servoMin : ℚ) + (103 * i : ℚ) / 130) = _
    rw [cround, if_pos (by linarith), round_eq]
  · show cround ((deg cfg : ℚ) - (103 * i : ℚ) / 130) = _
    rw [cround, if_pos (by linarith), round_eq]

/-- Witness for C8 at SERVOMIN 150, SERVOMAX 600, iteration 65 (the exact
half-unit case: 103 times 65 over 130 is 51.5). -/
theorem C8_thumb_scaling_witness :
    ((65 : Nat) ≤ 130 ∧ (0 : Int) ≤ cfg0.servoMin ∧ (103 : Int) ≤ deg cfg0) ∧
    (moveFingerVal cfg0 thumb true 65 = round ((cfg0.servoMin : ℚ) + (103 * (65 : Nat) : ℚ) / 130) ∧
      moveFingerVal cfg0 thumb false 65 = round ((deg cfg0 : ℚ) - (103 * (65 : Nat) : ℚ) / 130)) :=
  ⟨⟨by decide, by decide, by decide⟩,
    C8_thumb_scaling cfg0 65 (by decide) (by decide) (by decide)⟩

/-- Claim C4: issuing the same command line twice in a row produces no second
animation with any finger movement.  After the first cycle the latch equals
the target; re-sending the identical line re-decodes the same target and
leaves the (still set) dirty flag true, so the next loop iteration runs but
no finger satisfies target differing from latch and no actuator command at
all is issued. -/
theorem C4_idempotent (line : List Char) (r1 r2 : Nat → Fin 5 → Nat) (st0 : SysState)
    (hb : st0.buffer = []) (hn : '\n' ∉ line) :
    (processBytes (loopIteration r1 (processBytes st0 (line ++ ['\n'])))
        (line ++ ['\n'])).change = true ∧
    cycleCmds r2
      (processBytes (loopIteration r1 (processBytes st0 (line ++ ['\n'])))
        (line ++ ['\n'])) = [] := by
  have h1 : processBytes st0 (line ++ ['\n']) =
      { buffer := [], state0 := decodeLine line, state1 := st0.state1, change := true } := by
    rw [processBytes_line line st0 hn, hb, List.nil_append]
  have h2 : loopIteration r1 (processBytes st0 (line ++ ['\n'])) =
      { buffer := [], state0 := decodeLine line, state1 := decodeLine line,
        change := true } := by
    rw [h1]
    unfold loopIteration
    rw [if_pos rfl, resync_eq]
  have h3 : processBytes (loopIteration r1 (processBytes st0 (line ++ ['\n'])))
      (line ++ ['\n']) =
      { buffer := [], state0 := decodeLine line, state1 := decodeLine line,
        change := true } := by
    rw [h2, processBytes_line line _ hn, List.nil_append]
  rw [h3]
  refine ⟨rfl, ?_⟩
  unfold cycleCmds
  rw [if_pos rfl]
  exact runSteps_cmds_nil _ r2 forSteps _ (fun _ => rfl)

/-- Witness for C4 on the line "010101" from the initial state. -/
theorem C4_idempotent_witness :
    (initState.buffer = [] ∧ '\n' ∉ ("010101".data)) ∧
    ((processBytes (loopIteration noReadings (processBytes initState ("010101".data ++ ['\n'])))
        ("010101".data ++ ['\n'])).change = true ∧
      cycleCmds bigReadings
        (processBytes (loopIteration noReadings (processBytes initState ("010101".data ++ ['\n'])))
          ("010101".data ++ ['\n'])) = []) :=
  ⟨⟨rfl, by decide⟩,
    C4_idempotent ("010101".data) noReadings bigReadings initState rfl (by decide)⟩

/-- Claim C2: at any motion step s of a command cycle at which sensing finger
k's analog reading exceeds its threshold, the sensor gate copies the current
target value into the latch at finger k+1, and from that step on (the gate
runs before the command loop of the same step) no actuator command of the
cycle names finger k+1; the latch is one-way because the gate only ever
rewrites the target value, so the equality persists until the end-of-cycle
resync.  The step list is split as l1 before the triggering step s and l2
after it; the last conjunct re-joins the split into the full cycle's trace. -/
theorem C2_gate_latches_and_suppresses (tgt : Fin 6 → Bool) (r : Nat → Fin 5 → Nat)
    (latch0 : Fin 6 → Bool) (k : Fin 5) (s : Nat) (l1 l2 : List Nat)
    (hsplit : forSteps = l1 ++ s :: l2) (hexc : hallThreshold k < r s k) :
    gateAll (r s) tgt (runSteps (fun _ => tgt) r l1 latch0).1 k.succ = tgt k.succ ∧
    (∀ c ∈ (runSteps (fun _ => tgt) r (s :: l2)
        (runSteps (fun _ => tgt) r l1 latch0).1).2, c.fingerId ≠ k.succ) ∧
    (runSteps (fun _ => tgt) r forSteps latch0).2 =
      (runSteps (fun _ => tgt) r l1 latch0).2 ++
        (runSteps (fun _ => tgt) r (s :: l2) (runSteps (fun _ => tgt) r l1 latch0).1).2 := by
  have hg : gateAll (r s) tgt (runSteps (fun _ => tgt) r l1 latch0).1 k.succ = tgt k.succ :=
    gateAll_exceed tgt _ k hexc
  refine ⟨hg, ?_, ?_⟩
  · intro c hc
    simp only [runSteps] at hc
    rcases List.mem_append.mp hc with h1 | h2
    · exact commandsAtStep_not_mem hg s c h1
    · exact (runSteps_inv tgt r l2 _ k.succ hg).2 c h2
  · rw [hsplit, runSteps_append]

/-- Witness for C2: sensing finger 0 (channel 1) fires at the very first
step, target all flexed, latch initially all extended. -/
theorem C2_gate_latches_and_suppresses_witness :
    (forSteps = [] ++ 5 :: forSteps.tail ∧ hallThreshold 0 < bigReadings 5 0) ∧
    (gateAll (bigReadings 5) allFlexed
        (runSteps (fun _ => allFlexed) bigReadings [] allExtended).1 (0 : Fin 5).succ =
        allFlexed (0 : Fin 5).succ ∧
      (∀ c ∈ (runSteps (fun _ => allFlexed) bigReadings (5 :: forSteps.tail)
          (runSteps (fun _ => allFlexed) bigReadings [] allExtended).1).2,
        c.fingerId ≠ (0 : Fin 5).succ) ∧
      (runSteps (fun _ => allFlexed) bigReadings forSteps allExtended).2 =
        (runSteps (fun _ => allFlexed) bigReadings [] allExtended).2 ++
          (runSteps (fun _ => allFlexed) bigReadings (5 :: forSteps.tail)
            (runSteps (fun _ => allFlexed) bigReadings [] allExtended).1).2) :=
  ⟨⟨rfl, by decide⟩,
    C2_gate_latches_and_suppresses allFlexed bigReadings allExtended 0 5 [] forSteps.tail
      rfl (by decide)⟩

/-- Claim C5: "000000" then "111111" arriving before the first cycle
completes (the target schedule switches at iteration m, at latest at the
final step 130).  The in-flight cycle runs to completion: with sensors below
threshold its per-finger trace ends with the flex command at iteration 130
for every finger, matching the second line's digits; the resync then copies
the second line's targets into the latch, so the next cycle (the flag is
still set) issues no commands, and the last device command per finger is the
one corresponding to "111111". -/
theorem C5_second_command_wins (m : Nat) (hm : m ≤ 130) (j : Fin 6) :
    ((c5firstCycle m).2.filter (fun c => c.fingerId == j)).getLast? =
      some ⟨j, true, 130⟩ ∧
    decodeLine lineOnes j = true ∧
    (c5secondCycle m).2 = [] := by
  have hlow : ∀ i (k : Fin 5), ¬ hallThreshold k < noReadings i k := by
    intro i k
    simp [noReadings]
  have hrun := runSteps_noGate (c5targets m) noReadings forSteps (fun _ => false) hlow
  refine ⟨?_, ?_, ?_⟩
  · rw [c5firstCycle, hrun]
    show (List.filter _ _).getLast? = _
    rw [c5_trace_filter m j forSteps]
    rw [show forSteps = (List.range' 5 25 5) ++ [130] from rfl, List.foldr_append]
    apply getLast_foldr_blocks
    simp only [List.foldr_cons, List.foldr_nil]
    rw [if_neg (by omega : ¬ 130 < m)]
    rfl
  · rw [decodeLine_ones]
  · rw [c5secondCycle, show c5targets m 135 = decodeLine lineOnes from by
      unfold c5targets
      rw [if_neg (by omega)], resync_eq]
    exact runSteps_cmds_nil _ noReadings forSteps _ (fun _ => rfl)

/-- Witness for C5: overwrite at iteration 50, observed at the thumb's
channel 4. -/
theorem C5_second_command_wins_witness :
    (50 : Nat) ≤ 130 ∧
    (((c5firstCycle 50).2.filter (fun c => c.fingerId == (4 : Fin 6))).getLast? =
        some ⟨4, true, 130⟩ ∧
      decodeLine lineOnes (4 : Fin 6) = true ∧
      (c5secondCycle 50).2 = []) :=
  ⟨by decide, C5_second_command_wins 50 (by decide) 4⟩

end GestureSound
